import Mathlib

/-!
# Verification of the lemoncake boot-image tooling

Shallow embedding of `src/check_header.py` (the boot-image header validator)
and of the image-assembly pipeline in `src/utils.py`, together with proofs
settling the specification claims about them.

Bytes are modelled as natural numbers (each `< 256` where a claim needs it);
a file's contents is a `List Nat`.  Python-specific operations (slicing,
`bytes.startswith`, `bytes` repr, `str.lstrip`/`rstrip`, `int.from_bytes`,
`format(n, "#010x")`, and the semantics of comparing `bytes` with `int`)
are each embedded as an explicitly named definition.
-/

/-! ## Python primitives used by `check_header.py` -/

/-- Python slice `data[a:b]` for `0 ≤ a ≤ b`: drop the first `a` elements and
keep at most `b - a` of the rest (clipped at the end of the sequence, exactly
as Python clips out-of-range slice bounds). -/
def pySlice (data : List Nat) (a b : Nat) : List Nat :=
  (data.drop a).take (b - a)

/-- Python `data.startswith(pre)`: the first `pre.length` elements of `data`
equal `pre` (false when `data` is shorter than `pre`). -/
def pyStartswith (data pre : List Nat) : Bool :=
  data.take pre.length == pre

/-- Python semantics of `bytes == int`: `bytes.__eq__` with a non-bytes
operand returns `NotImplemented`, so the comparison falls back to identity
and is always `False`.  The source line `data[6:7] == 0x0000` in
`check_header.py` is therefore constantly false, whatever the slice is. -/
def pyBytesEqInt (_b : List Nat) (_n : Nat) : Bool :=
  false

/-- Python `int.from_bytes(bs, byteorder='big')`: big-endian accumulation;
the empty sequence yields `0`. -/
def intFromBytesBE (bs : List Nat) : Nat :=
  bs.foldl (fun a b => a * 256 + b) 0

/-- Fuel-indexed helper for `pyHexDigits`; the fuel only bounds the recursion
depth and is irrelevant once it exceeds `n` (see `pyHexDigitsAux_eq`). -/
def pyHexDigitsAux : Nat → Nat → List Char
  | 0, _ => []
  | fuel + 1, n =>
    if n < 16 then [Nat.digitChar n]
    else pyHexDigitsAux fuel (n / 16) ++ [Nat.digitChar (n % 16)]

/-- The minimal lowercase hexadecimal digit string of `n`, most significant
digit first, as Python's `"%x"`/`"{:x}"` formatting produces (so `0 ↦ "0"`). -/
def pyHexDigits (n : Nat) : List Char :=
  pyHexDigitsAux (n + 1) n

/-- Python `f"{n:#010x}"`: `0x` followed by the lowercase hex digits of `n`,
zero-padded on the left to a total width of 10 characters (i.e. to 8 digits
after the `0x` prefix; numbers needing more than 8 digits are not truncated). -/
def pyFormatHash010x (n : Nat) : String :=
  "0x" ++ String.mk (List.replicate (8 - (pyHexDigits n).length) '0' ++ pyHexDigits n)

/-- The delimiter quote Python's `repr` picks for a `bytes` literal: a single
quote, unless the bytes contain `'` but no `"`, in which case a double quote. -/
def pyReprQuote (bs : List Nat) : Char :=
  if bs.contains 0x27 && !bs.contains 0x22 then '"' else '\''

/-- How Python's `bytes` repr renders one byte inside delimiter `q`:
backslash, tab, newline, carriage return and the delimiter itself are
backslash-escaped, other printable ASCII stands for itself, and everything
else becomes a `\xhh` escape with lowercase hex digits. -/
def pyByteEsc (q : Char) (b : Nat) : List Char :=
  if b = 0x5c then ['\\', '\\']
  else if b = 0x09 then ['\\', 't']
  else if b = 0x0a then ['\\', 'n']
  else if b = 0x0d then ['\\', 'r']
  else if b = q.toNat then ['\\', q]
  else if 0x20 ≤ b && b ≤ 0x7e then [Char.ofNat b]
  else ['\\', 'x', Nat.digitChar (b / 16), Nat.digitChar (b % 16)]

/-- Python `str(bs)` for a `bytes` value `bs`: the repr `b<q>...<q>` with
each byte escaped per `pyByteEsc`. -/
def pyBytesRepr (bs : List Nat) : String :=
  let q := pyReprQuote bs
  String.mk ('b' :: q :: bs.flatMap (pyByteEsc q) ++ [q])

/-- Python `s.lstrip(set)`: remove leading characters belonging to `set`. -/
def pyLstrip (s : String) (set : List Char) : String :=
  String.mk (s.data.dropWhile (set.contains ·))

/-- Python `s.rstrip(set)`: remove trailing characters belonging to `set`. -/
def pyRstrip (s : String) (set : List Char) : String :=
  String.mk ((s.data.reverse.dropWhile (set.contains ·)).reverse)

/-- The byte values of the magic literal `b"kb00t!"`. -/
def magicBytes : List Nat := [0x6b, 0x62, 0x30, 0x30, 0x74, 0x21]

/-- The character set of the Python literal `"b'\\x"` passed to `lstrip`:
the characters `b`, `'`, `\` and `x`. -/
def lstripSet : List Char := ['b', '\'', '\\', 'x']

/-! ## The validator `check_header.py` -/

/-- Outcome of running `check_header.py` on a file's bytes: the four report
lines printed, in order, and the process exit code (`sys.exit(1)` when the
`correct` flag ended up false, `0` otherwise). -/
structure HeaderResult where
  report : List String
  exitCode : Nat
deriving Repr, DecidableEq

/-- Shallow embedding of the module top-level of `src/check_header.py`:
the four checks run unconditionally in sequence, each printing one line and
clearing the `correct` flag on failure; the process exits with code 1 iff
the flag was cleared. -/
def check_header (data : List Nat) : HeaderResult :=
  let correct := true
  let (l1, correct) :=
    if data.length < 13 then ("[✘] File too small", false)
    else ("[✔] Header size is valid", correct)
  let (l2, correct) :=
    if pyStartswith data magicBytes then ("[✔] Found magic", correct)
    else ("[✘] Magic not found", false)
  let (l3, correct) :=
    if pySlice data 6 7 = [0x01] then ("[✔] Found version: 01", correct)
    else if pyBytesEqInt (pySlice data 6 7) 0x0000 then ("[✘] Version not found", false)
    else ("[✘] Found incorrect version: " ++
            pyRstrip (pyLstrip (pyBytesRepr (pySlice data 6 7)) lstripSet) ['\''], false)
  let (l4, correct) :=
    if pySlice data 8 12 ≠ [0x00, 0x00, 0x00, 0x00] then
      ("[✔] Found kernel entry point address: " ++
         pyFormatHash010x (intFromBytesBE (pySlice data 8 12)), correct)
    else ("[✘] Entry point address not found", false)
  { report := [l1, l2, l3, l4], exitCode := if correct then 0 else 1 }

/-- The size check's pass condition: total length at least 13 bytes. -/
def sizePass (data : List Nat) : Bool := !decide (data.length < 13)

/-- The magic check's pass condition: the file starts with `b"kb00t!"`. -/
def magicPass (data : List Nat) : Bool := pyStartswith data magicBytes

/-- The version check's pass condition: slice `data[6:7]` equals `b"\x01"`. -/
def versionPass (data : List Nat) : Bool := pySlice data 6 7 == [0x01]

/-- The entry-point check's pass condition: slice `data[8:12]` differs from
`b"\x00\x00\x00\x00"`. -/
def entryPass (data : List Nat) : Bool := pySlice data 8 12 != [0x00, 0x00, 0x00, 0x00]

/-- The pass/fail mark of a report line: its second character
(`'✔'` for a pass line, `'✘'` for a fail line). -/
def lineMark (s : String) : Option Char := s.data[1]?

/-- The fixed-width formatter the spec describes for entry-point addresses:
exactly `k` lowercase hexadecimal digits of `n`, most significant first. -/
def specHexDigits : Nat → Nat → List Char
  | 0, _ => []
  | k + 1, n => specHexDigits k (n / 16) ++ [Nat.digitChar (n % 16)]

/-! ## The image-assembly pipeline of `src/utils.py`

The pipeline shells out to external tools and touches the filesystem; the
embedding abstracts that environment into `AsmEnv` (facts that hold when the
script starts: the detected platform, the exit statuses the external tools
would return, which artifacts already exist, and the readable kernel-source
files with their relative paths and contents) and records the script's
observable behaviour in `AsmResult`. -/

/-- The environment `utils.py` runs against. `kernelFiles` is the list of
(relative path, text content) pairs of the readable files under
`kernel/src`, in the (arbitrary) order the directory walk yields them. -/
structure AsmEnv where
  platform : String
  rustupRet : Nat
  nasmRet : Nat
  ldRet : Nat
  loremExists : Bool
  initStaged : Bool
  srcExists : Bool
  kernelFiles : List (String × String)
deriving Repr, DecidableEq

/-- What a run of `utils.py` did: which tools were invoked, which staging
writes happened, the text written to `target/ramdisk/lcsrc.txt` (if that
point was reached), and the process exit (`some 1` for `sys.exit(1)`,
`none` for falling off the end of the script normally). -/
structure AsmResult where
  rustupInvoked : Bool
  nasmInvoked : Bool
  ldInvoked : Bool
  loremWritten : Bool
  initCopied : Bool
  lcsrc : Option String
  tarInvoked : Bool
  exitCode : Option Nat
deriving Repr, DecidableEq

/-- Lexicographic `≤` on character lists by code point, the order Python's
string comparison uses on POSIX paths. -/
def charListLe : List Char → List Char → Bool
  | [], _ => true
  | _ :: _, [] => false
  | a :: as, b :: bs => if a = b then charListLe as bs else decide (a < b)

/-- Ordering of kernel-source files: ascending by relative path
(code-point-lexicographic comparison of the path strings, as Python's
`sorted` applies to `Path` values sharing the `kernel/src` prefix). -/
def pathLe (a b : String × String) : Prop := charListLe a.1.data b.1.data = true

instance : DecidableRel pathLe := fun a b =>
  instDecidableEqBool (charListLe a.1.data b.1.data) true

instance : IsTotal (String × String) pathLe :=
  ⟨by
    intro a b
    unfold pathLe
    generalize a.1.data = as
    generalize b.1.data = bs
    induction as generalizing bs with
    | nil => exact Or.inl rfl
    | cons x xs ih =>
      cases bs with
      | nil => exact Or.inr rfl
      | cons y ys =>
        by_cases h : x = y
        · subst h
          simpa [charListLe] using ih ys
        · rcases lt_or_gt_of_ne h with hlt | hgt
          · exact Or.inl (by simp [charListLe, h, hlt])
          · exact Or.inr (by simp [charListLe, Ne.symm h, hgt])⟩

instance : IsTrans (String × String) pathLe :=
  ⟨by
    intro a b c
    unfold pathLe
    generalize a.1.data = as
    generalize b.1.data = bs
    generalize c.1.data = cs
    induction as generalizing bs cs with
    | nil => intro _ _; rfl
    | cons x xs ih =>
      intro h₁ h₂
      cases bs with
      | nil => simp [charListLe] at h₁
      | cons y ys =>
        cases cs with
        | nil => simp [charListLe] at h₂
        | cons z zs =>
          by_cases hxy : x = y <;> by_cases hyz : y = z
          · subst hxy; subst hyz
            simp only [charListLe, if_pos rfl] at h₁ h₂ ⊢
            exact ih ys zs h₁ h₂
          · subst hxy
            simp only [charListLe, if_neg hyz, decide_eq_true_eq] at h₂
            simp [charListLe, hyz, h₂]
          · subst hyz
            simp only [charListLe, if_neg hxy, decide_eq_true_eq] at h₁
            simp [charListLe, hxy, h₁]
          · simp only [charListLe, if_neg hxy, decide_eq_true_eq] at h₁
            simp only [charListLe, if_neg hyz, decide_eq_true_eq] at h₂
            have hxz : x < z := lt_trans h₁ h₂
            simp [charListLe, ne_of_lt hxz, hxz]⟩

/-- The files found by `sorted([f for f in src_path.rglob('*') if f.is_file()])`,
ordered ascending by path.  Python's `sorted` is a stable comparison sort;
any stable sort computes the same list, so it is embedded as a stable
insertion sort over the path order. -/
def sortedKernelFiles (fs : List (String × String)) : List (String × String) :=
  List.insertionSort pathLe fs

/-- Python `content.endswith('\n')`: the last character is a newline. -/
def pyEndsNewline (c : String) : Bool :=
  c.data.getLast? == some '\n'

/-- One entry of `lcsrc.txt` as the source writes it: the `// <rel_path>`
line, the file's content, a newline appended only when the content is
non-empty (Python truthiness of `content`) and does not already end with a
newline, and the single separator newline. -/
def lcsrcEntry (p c : String) : String :=
  "// " ++ p ++ "\n" ++ c ++
    (if !c.data.isEmpty && !pyEndsNewline c then "\n" else "") ++ "\n"

/-- The full text written to `target/ramdisk/lcsrc.txt` for a given file
list: the entries of the sorted files, concatenated. -/
def lcsrcText (fs : List (String × String)) : String :=
  String.join ((sortedKernelFiles fs).map fun pc => lcsrcEntry pc.1 pc.2)

/-- Shallow embedding of the module top-level of `src/utils.py`.
Platform detection and the log lines are pure output; `rustup` and `nasm`
are invoked unconditionally; `ld` runs only when `nasm` returned 0 and the
platform is not Windows (every nonzero status only selects which diagnostic
is printed); `lorem.txt` and the `init` copy are guarded by existence
checks; a missing `kernel/src` or an empty file list triggers
`sys.exit(1)`; otherwise `lcsrc.txt` is rebuilt and `tar` is invoked. -/
def run_utils (env : AsmEnv) : AsmResult :=
  let rustupInvoked := true
  let nasmInvoked := true
  let ldInvoked := env.nasmRet == 0 && env.platform != "Windows"
  let loremWritten := !env.loremExists
  let initCopied := !env.initStaged
  if !env.srcExists then
    { rustupInvoked, nasmInvoked, ldInvoked, loremWritten, initCopied
      lcsrc := none, tarInvoked := false, exitCode := some 1 }
  else
    let files := sortedKernelFiles env.kernelFiles
    if files.isEmpty then
      { rustupInvoked, nasmInvoked, ldInvoked, loremWritten, initCopied
        lcsrc := none, tarInvoked := false, exitCode := some 1 }
    else
      { rustupInvoked, nasmInvoked, ldInvoked, loremWritten, initCopied
        lcsrc := some (lcsrcText env.kernelFiles), tarInvoked := true
        exitCode := none }

/-! ## Definitions taken from the claims' wording (for refinement checks) -/

/-- A string with all trailing newline characters removed. -/
def stripTrailingNewlines (c : String) : String :=
  String.mk ((c.data.reverse.dropWhile (· = '\n')).reverse)

/-- Content normalization as claim C7 words it: the content ends with
exactly one trailing newline (one is appended when missing). -/
def claimNormalize (c : String) : String :=
  stripTrailingNewlines c ++ "\n"

/-- One `lcsrc.txt` entry as claim C7 words it: the `// <relative-path>`
line, the normalized content, then a single blank-line separator. -/
def claimLcsrcEntry (p c : String) : String :=
  "// " ++ p ++ "\n" ++ claimNormalize c ++ "\n"

/-- The whole `lcsrc.txt` as claim C7 words it. -/
def claimLcsrcText (fs : List (String × String)) : String :=
  String.join ((sortedKernelFiles fs).map fun pc => claimLcsrcEntry pc.1 pc.2)

/-! ## Concrete inputs used by examples, witnesses and counterexamples -/

/-- The 12-byte header of claim C5: magic, version 1, one reserved byte,
entry point `0x00100000` big-endian. -/
def roundTripHeader : List Nat :=
  magicBytes ++ [0x01, 0x00] ++ [0x00, 0x10, 0x00, 0x00]

/-- A 13-byte file whose version byte (offset 6) is `0x00`. -/
def versionZeroInput : List Nat :=
  magicBytes ++ [0x00, 0x00] ++ [0x00, 0x10, 0x00, 0x00] ++ [0xff]

/-- A 13-byte file whose version byte (offset 6) is `0x41` (ASCII `A`). -/
def versionLetterInput : List Nat :=
  magicBytes ++ [0x41, 0x00] ++ [0x00, 0x10, 0x00, 0x00] ++ [0xff]

/-- A fully valid 13-byte input: the 12-byte header followed by one payload
byte. -/
def validInput : List Nat := roundTripHeader ++ [0xff]

/-- A sample pipeline environment with two kernel-source files given out of
order. -/
def sampleEnv : AsmEnv :=
  { platform := "Linux"
    rustupRet := 0
    nasmRet := 0
    ldRet := 0
    loremExists := false
    initStaged := false
    srcExists := true
    kernelFiles := [("main.rs", "fn main"), ("lib.rs", "mod a\n")] }

/-- A pipeline environment in which the init executable is already staged. -/
def initPresentEnv : AsmEnv :=
  { platform := "Linux"
    rustupRet := 0
    nasmRet := 0
    ldRet := 0
    loremExists := true
    initStaged := true
    srcExists := true
    kernelFiles := [("main.rs", "x\n")] }

/-- A pipeline environment with one kernel-source file whose content ends in
two newlines. -/
def doubleNewlineEnv : AsmEnv :=
  { platform := "Linux"
    rustupRet := 0
    nasmRet := 0
    ldRet := 0
    loremExists := true
    initStaged := true
    srcExists := true
    kernelFiles := [("a.rs", "x\n\n")] }

/-! ## Supporting lemmas about the hexadecimal formatting -/

theorem pyHexDigitsAux_eq :
    ∀ fuel fuel' n : Nat, n < fuel → n < fuel' →
      pyHexDigitsAux fuel n = pyHexDigitsAux fuel' n := by
  intro fuel
  induction fuel with
  | zero => intro fuel' n h; omega
  | succ f ih =>
    intro fuel' n h h'
    match fuel', h' with
    | f' + 1, _ =>
      show pyHexDigitsAux (f + 1) n = pyHexDigitsAux (f' + 1) n
      unfold pyHexDigitsAux
      by_cases h16 : n < 16
      · simp [h16]
      · simp only [h16, if_false]
        have hd : n / 16 < f := by
          have := Nat.div_lt_self (by omega : 0 < n) (by omega : 1 < 16)
          omega
        have hd' : n / 16 < f' := by
          have := Nat.div_lt_self (by omega : 0 < n) (by omega : 1 < 16)
          omega
        rw [ih f' (n / 16) hd hd']

theorem pyHexDigits_lt {n : Nat} (h : n < 16) :
    pyHexDigits n = [Nat.digitChar n] := by
  unfold pyHexDigits pyHexDigitsAux
  simp [h]

theorem pyHexDigits_ge {n : Nat} (h : 16 ≤ n) :
    pyHexDigits n = pyHexDigits (n / 16) ++ [Nat.digitChar (n % 16)] := by
  unfold pyHexDigits
  conv =>
    lhs
    unfold pyHexDigitsAux
  simp only [Nat.not_lt.mpr h, if_false]
  have hd : n / 16 < n := Nat.div_lt_self (by omega) (by omega)
  rw [pyHexDigitsAux_eq n (n / 16 + 1) (n / 16) hd (Nat.lt_succ_self _)]

theorem specHexDigits_zero : ∀ k, specHexDigits k 0 = List.replicate k '0'
  | 0 => rfl
  | k + 1 => by
    show specHexDigits k 0 ++ [Nat.digitChar 0] = List.replicate (k + 1) '0'
    rw [specHexDigits_zero k, List.replicate_succ' k '0']
    rfl

/-- Zero-padding the minimal hex digit list of `n` to width `k` yields the
fixed-width digit list, provided `n` fits in `k` digits. -/
theorem padded_pyHexDigits_eq_specHexDigits :
    ∀ k n : Nat, n < 16 ^ k → 0 < k →
      List.replicate (k - (pyHexDigits n).length) '0' ++ pyHexDigits n =
        specHexDigits k n := by
  intro k
  induction k with
  | zero => intro n _ h; omega
  | succ k ih =>
    intro n hn _
    by_cases h16 : n < 16
    · rw [pyHexDigits_lt h16]
      show List.replicate (k + 1 - 1) '0' ++ [Nat.digitChar n] = _
      have h0 : n / 16 = 0 := Nat.div_eq_of_lt h16
      have hm : n % 16 = n := Nat.mod_eq_of_lt h16
      show _ = specHexDigits k (n / 16) ++ [Nat.digitChar (n % 16)]
      rw [h0, hm, specHexDigits_zero k, Nat.succ_sub_one]
    · have hk : 0 < k := by
        by_contra hk0
        have : k = 0 := by omega
        subst this
        simp at hn
        omega
      have hdiv : n / 16 < 16 ^ k := by
        rw [Nat.div_lt_iff_lt_mul (by omega : 0 < 16)]
        calc n < 16 ^ (k + 1) := hn
        _ = 16 ^ k * 16 := by ring
      have ihh := ih (n / 16) hdiv hk
      rw [pyHexDigits_ge (Nat.not_lt.mp h16)]
      show _ = specHexDigits k (n / 16) ++ [Nat.digitChar (n % 16)]
      rw [List.length_append, List.length_singleton]
      have : k + 1 - ((pyHexDigits (n / 16)).length + 1) =
          k - (pyHexDigits (n / 16)).length := by omega
      rw [this, ← List.append_assoc, ihh]

/-- For values below `16 ^ 8`, Python's `f"{n:#010x}"` is `0x` followed by
the 8 fixed lowercase hex digits of `n`. -/
theorem pyFormatHash010x_eq {n : Nat} (h : n < 16 ^ 8) :
    pyFormatHash010x n = "0x" ++ String.mk (specHexDigits 8 n) := by
  unfold pyFormatHash010x
  rw [padded_pyHexDigits_eq_specHexDigits 8 n h (by omega)]

/-- Big-endian accumulation of byte values stays below `256 ^ length`. -/
theorem intFromBytesBE_lt_aux :
    ∀ (bs : List Nat) (a : Nat), (∀ b ∈ bs, b < 256) →
      bs.foldl (fun x y => x * 256 + y) a < (a + 1) * 256 ^ bs.length := by
  intro bs
  induction bs with
  | nil => intro a _; simp
  | cons b bs ih =>
    intro a hb
    have hb256 : b < 256 := hb b (List.mem_cons_self b bs)
    have hbs : ∀ x ∈ bs, x < 256 := fun x hx => hb x (List.mem_cons_of_mem b hx)
    calc (b :: bs).foldl (fun x y => x * 256 + y) a
        = bs.foldl (fun x y => x * 256 + y) (a * 256 + b) := rfl
      _ < (a * 256 + b + 1) * 256 ^ bs.length := ih (a * 256 + b) hbs
      _ ≤ ((a + 1) * 256) * 256 ^ bs.length := by
          apply Nat.mul_le_mul_right
          omega
      _ = (a + 1) * 256 ^ (b :: bs).length := by
          rw [List.length_cons]
          ring

theorem intFromBytesBE_lt {bs : List Nat} (hb : ∀ b ∈ bs, b < 256)
    (hl : bs.length ≤ 4) : intFromBytesBE bs < 16 ^ 8 := by
  have h := intFromBytesBE_lt_aux bs 0 hb
  simp only [Nat.zero_add, Nat.one_mul] at h
  calc intFromBytesBE bs < 256 ^ bs.length := h
    _ ≤ 256 ^ 4 := Nat.pow_le_pow_right (by omega) hl
    _ = 16 ^ 8 := by norm_num

/-! ## Sanity examples -/

example : check_header [] = { report := ["[✘] File too small", "[✘] Magic not found",
    "[✘] Found incorrect version: ",
    "[✔] Found kernel entry point address: 0x00000000"], exitCode := 1 } := by
  decide

example :
    check_header [0x6b, 0x62, 0x30, 0x30, 0x74, 0x21, 0x01, 0x00, 0x00, 0x10, 0x00, 0x00, 0xff] =
      { report := ["[✔] Header size is valid", "[✔] Found magic", "[✔] Found version: 01",
        "[✔] Found kernel entry point address: 0x00100000"], exitCode := 0 } := by
  decide

example : (run_utils sampleEnv).lcsrc =
    some "// lib.rs\nmod a\n\n// main.rs\nfn main\n\n" := by
  decide

/-! ## Helper lemmas about report lines -/

theorem lineMark_append_left (a s : String) (h : 1 < a.data.length) :
    lineMark (a ++ s) = lineMark a := by
  unfold lineMark
  rw [String.data_append, List.getElem?_append_left h]

theorem lineMark_incorrect_version (s : String) :
    lineMark ("[✘] Found incorrect version: " ++ s) = some '✘' := by
  rw [lineMark_append_left _ _ (by decide)]
  decide

theorem lineMark_found_entry (s : String) :
    lineMark ("[✔] Found kernel entry point address: " ++ s) = some '✔' := by
  rw [lineMark_append_left _ _ (by decide)]
  decide

theorem found_entry_line_ne_missing (s : String) :
    ("[✔] Found kernel entry point address: " ++ s) ≠
      "[✘] Entry point address not found" := by
  intro h
  have h2 : lineMark ("[✔] Found kernel entry point address: " ++ s) =
      lineMark "[✘] Entry point address not found" := by rw [h]
  rw [lineMark_found_entry] at h2
  exact absurd h2 (by decide)

/-- When all four checks pass, the validator prints the four pass lines and
exits with code 0. -/
theorem check_header_all_pass (data : List Nat)
    (h1 : ¬ data.length < 13)
    (h2 : pyStartswith data magicBytes = true)
    (h3 : pySlice data 6 7 = [0x01])
    (h4 : pySlice data 8 12 ≠ [0x00, 0x00, 0x00, 0x00]) :
    check_header data =
      { report := ["[✔] Header size is valid", "[✔] Found magic", "[✔] Found version: 01",
          "[✔] Found kernel entry point address: " ++
            pyFormatHash010x (intFromBytesBE (pySlice data 8 12))]
        exitCode := 0 } := by
  simp [check_header, h1, h2, h3, h4]

/-! ## Claim theorems -/

/-- Claim C1 (code bug evaluation): on a 13-byte input whose version byte is
`0x00`, the validator does not report that the version is missing; it takes
the `VersionUnsupported` branch and prints `Found incorrect version: 00`,
because `data[6:7] == 0x0000` compares `bytes` with `int` and is always
false.  Moreover, for the printable version byte `0x41` the message renders
the byte as the letter `A`, not as a number. -/
theorem version_zero_misreported :
    (check_header versionZeroInput).report[2]? =
      some "[✘] Found incorrect version: 00" ∧
    (check_header versionZeroInput).report[2]? ≠ some "[✘] Version not found" ∧
    (check_header versionLetterInput).report[2]? =
      some "[✘] Found incorrect version: A" := by
  decide

/-- Claim C2: every input shorter than 13 bytes makes the first report line
`[✘] File too small` and the process exit with code 1, whatever the
content. -/
theorem short_input_reports_too_small_and_fails (data : List Nat)
    (h : data.length < 13) :
    (check_header data).report[0]? = some "[✘] File too small" ∧
    (check_header data).exitCode = 1 := by
  unfold check_header
  by_cases h2 : pyStartswith data magicBytes <;>
  by_cases h3 : pySlice data 6 7 = [0x01] <;>
  by_cases h4 : pySlice data 8 12 = [0x00, 0x00, 0x00, 0x00] <;>
  simp [h, h2, h3, h4, pyBytesEqInt]

/-- Witness for claim C2 at the empty input. -/
theorem short_input_witness :
    ([] : List Nat).length < 13 ∧
    ((check_header ([] : List Nat)).report[0]? = some "[✘] File too small" ∧
     (check_header ([] : List Nat)).exitCode = 1) :=
  ⟨by decide, short_input_reports_too_small_and_fails [] (by decide)⟩

/-- Claim C3: on inputs of length at least 12 (bytes being byte values),
if bytes 8–11 are all zero the fourth report line is the entry-point-missing
failure; otherwise it is the pass line containing the big-endian u32 value
of bytes 8–11 rendered as `0x` followed by exactly 8 lowercase hex digits. -/
theorem entry_point_check_full_header (data : List Nat)
    (_hlen : 12 ≤ data.length) (hb : ∀ b ∈ data, b < 256) :
    (pySlice data 8 12 = [0x00, 0x00, 0x00, 0x00] →
      (check_header data).report[3]? = some "[✘] Entry point address not found") ∧
    (pySlice data 8 12 ≠ [0x00, 0x00, 0x00, 0x00] →
      (check_header data).report[3]? =
        some ("[✔] Found kernel entry point address: " ++
          ("0x" ++ String.mk (specHexDigits 8 (intFromBytesBE (pySlice data 8 12)))))) := by
  constructor
  · intro h4
    simp [check_header, h4]
  · intro h4
    have hle : (pySlice data 8 12).length ≤ 4 := by
      unfold pySlice
      rw [List.length_take]
      exact Nat.min_le_left _ _
    have hmem : ∀ b ∈ pySlice data 8 12, b < 256 := fun b hb' =>
      hb b (List.mem_of_mem_drop (List.mem_of_mem_take hb'))
    have hv := intFromBytesBE_lt hmem hle
    have hfmt := pyFormatHash010x_eq hv
    simp [check_header, h4, hfmt]

/-- Witness for claim C3 at a valid 13-byte header. -/
theorem entry_point_witness :
    (check_header validInput).report[3]? =
      some ("[✔] Found kernel entry point address: " ++
        ("0x" ++ String.mk (specHexDigits 8 (intFromBytesBE (pySlice validInput 8 12))))) :=
  (entry_point_check_full_header validInput (by decide) (by decide)).2 (by decide)

/-- Claim C4: the validator exits with code 0 exactly when all four checks
pass, and with code 1 exactly when at least one check fails. -/
theorem exit_code_zero_iff_all_checks_pass (data : List Nat) :
    ((check_header data).exitCode = 0 ↔
      (sizePass data = true ∧ magicPass data = true ∧
       versionPass data = true ∧ entryPass data = true)) ∧
    ((check_header data).exitCode = 1 ↔
      ¬(sizePass data = true ∧ magicPass data = true ∧
        versionPass data = true ∧ entryPass data = true)) := by
  unfold check_header sizePass magicPass versionPass entryPass
  by_cases h1 : data.length < 13 <;>
  by_cases h2 : pyStartswith data magicBytes <;>
  by_cases h3 : pySlice data 6 7 = [0x01] <;>
  by_cases h4 : pySlice data 8 12 = [0x00, 0x00, 0x00, 0x00] <;>
  simp [h1, h2, h3, h4, pyBytesEqInt]

/-- Claim C6: on every input the validator emits exactly four report lines,
one per check in order, and the i-th line is a pass line precisely when the
i-th check passes — no earlier failure suppresses a later check's line. -/
theorem every_check_reports_one_line (data : List Nat) :
    (check_header data).report.length = 4 ∧
    (check_header data).report.map lineMark =
      [some (if sizePass data = true then '✔' else '✘'),
       some (if magicPass data = true then '✔' else '✘'),
       some (if versionPass data = true then '✔' else '✘'),
       some (if entryPass data = true then '✔' else '✘')] := by
  unfold check_header sizePass magicPass versionPass entryPass
  by_cases h1 : data.length < 13 <;>
  by_cases h2 : pyStartswith data magicBytes <;>
  by_cases h3 : pySlice data 6 7 = [0x01] <;>
  by_cases h4 : pySlice data 8 12 = [0x00, 0x00, 0x00, 0x00] <;>
  simp [h1, h2, h3, h4, pyBytesEqInt, lineMark_incorrect_version,
    lineMark_found_entry] <;>
  decide

/-- Claim C10: on inputs shorter than 12 bytes the entry-point check never
reports the entry point as missing (the short slice of bytes 8–11 never
equals the four-zero-byte literal), and on inputs of at most 8 bytes it
reports a found entry point of `0x00000000`. -/
theorem short_input_entry_check_never_missing (data : List Nat)
    (h : data.length < 12) :
    (check_header data).report[3]? ≠ some "[✘] Entry point address not found" ∧
    (data.length ≤ 8 →
      (check_header data).report[3]? =
        some "[✔] Found kernel entry point address: 0x00000000") := by
  have hslice : pySlice data 8 12 ≠ [0x00, 0x00, 0x00, 0x00] := by
    intro he
    have hlen4 : (pySlice data 8 12).length = 4 := by rw [he]; rfl
    unfold pySlice at hlen4
    rw [List.length_take, List.length_drop] at hlen4
    omega
  constructor
  · simp only [check_header, hslice, if_true, ne_eq]
    simp only [List.getElem?_cons_succ, List.getElem?_cons_zero]
    simp [hslice]
    exact fun hctr => found_entry_line_ne_missing _ hctr
  · intro h8
    have hdrop : data.drop 8 = [] := by
      rw [List.drop_eq_nil_iff]
      exact h8
    have hs : pySlice data 8 12 = [] := by
      unfold pySlice
      rw [hdrop]
      rfl
    simp [check_header, hslice, hs]
    decide

/-- Witness for claim C10 at the empty input. -/
theorem short_input_entry_witness :
    ((check_header ([] : List Nat)).report[3]? ≠
       some "[✘] Entry point address not found") ∧
    (check_header ([] : List Nat)).report[3]? =
      some "[✔] Found kernel entry point address: 0x00000000" :=
  ⟨(short_input_entry_check_never_missing [] (by decide)).1,
   (short_input_entry_check_never_missing [] (by decide)).2 (by decide)⟩

/-- Claim C5 counterexample: with an empty payload the synthesized header is
only 12 bytes, so the size check fails and validation rejects it — the
round-trip property is false for the empty payload. -/
theorem roundtrip_empty_payload_rejected :
    roundTripHeader ++ ([] : List Nat) = roundTripHeader ∧
    (check_header roundTripHeader).exitCode = 1 ∧
    (check_header roundTripHeader).report[0]? = some "[✘] File too small" := by
  decide

/-- Claim C5 (amended): the synthesized header followed by any NON-EMPTY
payload passes all four checks and validates with exit code 0. -/
theorem roundtrip_nonempty_payload_valid (payload : List Nat) (h : payload ≠ []) :
    (check_header (roundTripHeader ++ payload)).exitCode = 0 ∧
    (check_header (roundTripHeader ++ payload)).report =
      ["[✔] Header size is valid", "[✔] Found magic", "[✔] Found version: 01",
       "[✔] Found kernel entry point address: 0x00100000"] := by
  obtain ⟨p, ps, rfl⟩ : ∃ p ps, payload = p :: ps := by
    cases payload with
    | nil => exact absurd rfl h
    | cons p ps => exact ⟨p, ps, rfl⟩
  have hs : pySlice (roundTripHeader ++ p :: ps) 8 12 = [0x00, 0x10, 0x00, 0x00] := rfl
  have h1 : ¬ (roundTripHeader ++ p :: ps).length < 13 := by
    simp only [roundTripHeader, magicBytes, List.cons_append, List.nil_append,
      List.length_append, List.length_cons, List.length_nil]
    omega
  have h2 : pyStartswith (roundTripHeader ++ p :: ps) magicBytes = true := rfl
  have h3 : pySlice (roundTripHeader ++ p :: ps) 6 7 = [0x01] := rfl
  have h4 : pySlice (roundTripHeader ++ p :: ps) 8 12 ≠ [0x00, 0x00, 0x00, 0x00] := by
    rw [hs]
    decide
  rw [check_header_all_pass _ h1 h2 h3 h4, hs]
  exact ⟨rfl, by decide⟩

/-- Witness for claim C5 at the payload `[0xab]`. -/
theorem roundtrip_witness :
    (([0xab] : List Nat) ≠ []) ∧
    ((check_header (roundTripHeader ++ [0xab])).exitCode = 0 ∧
     (check_header (roundTripHeader ++ [0xab])).report =
       ["[✔] Header size is valid", "[✔] Found magic", "[✔] Found version: 01",
        "[✔] Found kernel entry point address: 0x00100000"]) :=
  ⟨by decide, roundtrip_nonempty_payload_valid [0xab] (by decide)⟩

/-- Claim C7 counterexample: a file whose content ends in two newlines is
emitted verbatim (plus the separator), not normalized down to exactly one
trailing newline as the claim words it. -/
theorem lcsrc_claim_normalization_counterexample :
    (run_utils doubleNewlineEnv).lcsrc = some "// a.rs\nx\n\n\n" ∧
    claimLcsrcText doubleNewlineEnv.kernelFiles = "// a.rs\nx\n\n" ∧
    (run_utils doubleNewlineEnv).lcsrc ≠
      some (claimLcsrcText doubleNewlineEnv.kernelFiles) := by
  decide

/-- Claim C7 (amended): the generated `lcsrc.txt` lists the files sorted
ascending by relative path (the emitted list is a permutation of the input
files, pairwise ordered by path), and for each file emits `// <relative-path>`,
then the file's content with one newline appended only when the content is
non-empty and does not already end with a newline (contents already ending
in one or more newlines are kept verbatim; empty contents get nothing
appended), then a single separator newline. -/
theorem lcsrc_sorted_code_entries (env : AsmEnv)
    (hsrc : env.srcExists = true) (hne : env.kernelFiles ≠ []) :
    (run_utils env).lcsrc = some (lcsrcText env.kernelFiles) ∧
    List.Perm (sortedKernelFiles env.kernelFiles) env.kernelFiles ∧
    List.Sorted pathLe (sortedKernelFiles env.kernelFiles) := by
  have hperm : List.Perm (sortedKernelFiles env.kernelFiles) env.kernelFiles :=
    List.perm_insertionSort pathLe env.kernelFiles
  refine ⟨?_, hperm, List.sorted_insertionSort pathLe env.kernelFiles⟩
  have hlen : (sortedKernelFiles env.kernelFiles).length = env.kernelFiles.length :=
    hperm.length_eq
  cases hcase : sortedKernelFiles env.kernelFiles with
  | nil =>
    have h0 : env.kernelFiles.length = 0 := by rw [← hlen, hcase]; rfl
    exact absurd (List.length_eq_zero.mp h0) hne
  | cons a l =>
    simp [run_utils, hsrc, hcase]

/-- Witness for claim C7 at a two-file environment given out of order. -/
theorem lcsrc_witness :
    (run_utils sampleEnv).lcsrc = some (lcsrcText sampleEnv.kernelFiles) ∧
    List.Perm (sortedKernelFiles sampleEnv.kernelFiles) sampleEnv.kernelFiles ∧
    List.Sorted pathLe (sortedKernelFiles sampleEnv.kernelFiles) :=
  lcsrc_sorted_code_entries sampleEnv (by decide) (by decide)

/-- Claim C8: the pipeline performs an abnormal exit (`sys.exit(1)`) exactly
when `kernel/src` is missing or contains no files; in every other
environment — whatever the tool exit statuses are — it runs to the end and
packs the archive. -/
theorem fatal_exit_iff_missing_or_empty_src (env : AsmEnv) :
    ((run_utils env).exitCode = some 1 ↔
      (env.srcExists = false ∨ env.kernelFiles = [])) ∧
    ((run_utils env).exitCode = none ↔
      (env.srcExists = true ∧ env.kernelFiles ≠ [])) ∧
    ((run_utils env).tarInvoked = true ↔
      (env.srcExists = true ∧ env.kernelFiles ≠ [])) := by
  have hperm : List.Perm (sortedKernelFiles env.kernelFiles) env.kernelFiles :=
    List.perm_insertionSort pathLe env.kernelFiles
  have hlen : (sortedKernelFiles env.kernelFiles).length = env.kernelFiles.length :=
    hperm.length_eq
  by_cases hs : env.srcExists
  · cases hcase : sortedKernelFiles env.kernelFiles with
    | nil =>
      have hknil : env.kernelFiles = [] := by
        apply List.length_eq_zero.mp
        rw [← hlen, hcase]
        rfl
      simp [run_utils, hs, hcase, hknil, sortedKernelFiles]
    | cons a l =>
      have hkne : env.kernelFiles ≠ [] := by
        intro hk
        rw [hcase, hk] at hlen
        simp at hlen
      simp [run_utils, hs, hcase, hkne]
  · have hs' : env.srcExists = false := by
      simpa [Bool.not_eq_true] using hs
    simp [run_utils, hs']

/-- Claim C9 counterexample: in an environment where the init executable is
already staged, the assembler is invoked anyway (and so is the linker) —
the assemble-and-link step is not skipped. -/
theorem init_present_counterexample :
    initPresentEnv.initStaged = true ∧
    (run_utils initPresentEnv).nasmInvoked = true ∧
    (run_utils initPresentEnv).ldInvoked = true := by
  decide

/-- Claim C9 (amended): the assembler (`nasm`) is invoked unconditionally on
every run, regardless of whether an init executable exists; the linker runs
exactly when `nasm` returned 0 on a non-Windows platform; what the
existence check guards is only the copy of `init` into the ramdisk staging
directory, skipped when `target/ramdisk/init` already exists. -/
theorem assemble_link_unconditional (env : AsmEnv) :
    (run_utils env).nasmInvoked = true ∧
    ((run_utils env).ldInvoked = true ↔
      (env.nasmRet = 0 ∧ env.platform ≠ "Windows")) ∧
    ((run_utils env).initCopied = true ↔ env.initStaged = false) := by
  by_cases hs : env.srcExists
  · cases hcase : sortedKernelFiles env.kernelFiles with
    | nil => simp [run_utils, hs, hcase, Bool.not_eq_true']
    | cons a l => simp [run_utils, hs, hcase, Bool.not_eq_true']
  · have hs' : env.srcExists = false := by
      simpa [Bool.not_eq_true] using hs
    simp [run_utils, hs', Bool.not_eq_true']
